import Mathlib

/-!
Verification of the encrypted-secret lifecycle of the eth-cli-vault wallet CLI.

Go strings and byte slices are modelled as lists of naturals (bytes).
External library primitives (golang.org/x/crypto/argon2, crypto/aes with GCM,
encoding/base64, go-bip39, go-ethereum-hdwallet, go-ethereum/crypto) are
parameters of the embedding, bundled in environment structures; theorems
assume only the documented library contracts, stated pointwise.
-/

namespace EthCliVault

/-- Go strings and byte slices are byte sequences; both are modelled as
lists of naturals. -/
abbrev GoStr := List Nat

/-- Byte list of an ASCII Lean string literal. -/
def strBytes (s : String) : GoStr := s.data.map Char.toNat

/-- External cryptographic and encoding primitives used by src/util/aes.go:
Argon2id key derivation, AES-256-GCM seal and open, and base64. -/
structure CryptoEnv where
  argon2IDKey : GoStr → List Nat → Nat → Nat → Nat → Nat → List Nat
  gcmSeal : List Nat → List Nat → List Nat → List Nat
  gcmOpen : List Nat → List Nat → List Nat → Option (List Nat)
  b64encode : List Nat → GoStr
  b64decode : GoStr → Option (List Nat)

/-- Behaviour of the Go standard library constructor aes.NewCipher: it fails
with KeySizeError exactly when the key is not 16, 24 or 32 bytes long. -/
def aesNewCipherOk (key : List Nat) : Bool :=
  key.length == 16 || key.length == 24 || key.length == 32

/-- Nonce size of the Go standard GCM mode, cipher.NewGCM: 12 bytes. -/
def gcmNonceSize : Nat := 12

/-- One io.ReadFull call on crypto/rand.Reader filling a buffer of n bytes:
the source either delivers a byte for every index or the read fails. -/
def readFull (src : Option (Nat → Nat)) (n : Nat) : Option (List Nat) :=
  src.map (fun f => (List.range n).map f)

/-- The persisted envelope record produced by EncryptMnemonic; field set and
JSON names follow src/util/aes.go and the wire shape in the spec. -/
structure EncryptedMnemonic where
  Version : Nat
  Algorithm : GoStr
  KeyDerivation : GoStr
  Memory : Nat
  Iterations : Nat
  Parallelism : Nat
  KeyLength : Nat
  Salt : GoStr
  Nonce : GoStr
  Ciphertext : GoStr
deriving Repr, DecidableEq

/-- Embedding of EncryptMnemonic (src/util/aes.go lines 14-67). The two
io.ReadFull reads on crypto/rand.Reader are passed in as explicit random
sources; a `none` source models a failed read. The Go error return is
modelled as `Option GoStr` (`some` carries the message). -/
def EncryptMnemonic (env : CryptoEnv) (mnemonic password : GoStr)
    (saltSrc nonceSrc : Option (Nat → Nat)) :
    EncryptedMnemonic × Option GoStr :=
  let result : EncryptedMnemonic :=
    { Version := 1
      Algorithm := strBytes "AES-256-GCM"
      KeyDerivation := strBytes "Argon2id"
      Memory := 1024 * 1024
      Iterations := 12
      Parallelism := 4
      KeyLength := 32
      Salt := []
      Nonce := []
      Ciphertext := [] }
  match readFull saltSrc 16 with
  | none => (result, some (strBytes "failed to generate random salt"))
  | some salt =>
    let result := { result with Salt := env.b64encode salt }
    let key := env.argon2IDKey password salt result.Iterations result.Memory
      result.Parallelism result.KeyLength
    if aesNewCipherOk key then
      match readFull nonceSrc gcmNonceSize with
      | none => (result, some (strBytes "unexpected EOF"))
      | some nonce =>
        let result := { result with Nonce := env.b64encode nonce }
        let ciphertext := env.gcmSeal key nonce mnemonic
        ({ result with Ciphertext := env.b64encode ciphertext }, none)
    else
      (result, some (strBytes "crypto aes invalid key size"))

/-- Modelled from the spec: DecryptMnemonic is code of this repository that is
not under src/ (only its callers appear, e.g. src/cmd/common.go line 96).
Following spec section 4.1: re-derive the 32-byte key from the password and
the envelope's own stored salt and KDF parameters, then attempt AEAD
decryption with the stored nonce and ciphertext; tag verification failure
yields one undifferentiated decryption error. -/
def DecryptMnemonic (env : CryptoEnv) (em : EncryptedMnemonic)
    (password : GoStr) : Except GoStr GoStr :=
  match env.b64decode em.Salt with
  | none => .error (strBytes "failed to decode salt")
  | some salt =>
    let key := env.argon2IDKey password salt em.Iterations em.Memory
      em.Parallelism em.KeyLength
    if aesNewCipherOk key then
      match env.b64decode em.Nonce with
      | none => .error (strBytes "failed to decode nonce")
      | some nonce =>
        match env.b64decode em.Ciphertext with
        | none => .error (strBytes "failed to decode ciphertext")
        | some ciphertext =>
          match env.gcmOpen key nonce ciphertext with
          | none => .error (strBytes "failed to decrypt mnemonic")
          | some plaintext => .ok plaintext
    else
      .error (strBytes "crypto aes invalid key size")

/-- External BIP39, HD-wallet and secp256k1 primitives used by
getAddressFromMnemonic (go-bip39, go-ethereum-hdwallet, go-ethereum/crypto).
Seeds, wallets, accounts, derivation paths and private keys are all byte
sequences; the functions are abstract parameters of the embedding. -/
structure HDEnv where
  bip39NewSeed : GoStr → GoStr → List Nat
  newFromSeed : List Nat → Except GoStr (List Nat)
  parseDerivationPath : GoStr → Except GoStr (List Nat)
  defaultBaseDerivationPath : List Nat
  derive : List Nat → List Nat → Bool → Except GoStr (List Nat)
  privateKey : List Nat → List Nat → Except GoStr (List Nat)
  addressHex : List Nat → GoStr
  fromECDSA : List Nat → List Nat

/-- Bytes of the string literal passed for the first account,
written with character codes (39 is the apostrophe): m/44'/60'/0'/0/0. -/
def firstAccountPathStr : GoStr :=
  [109, 47, 52, 52, 39, 47, 54, 48, 39, 47, 48, 39, 47, 48, 47, 48]

/-- Bytes of the base HD path literal stored in wallet files: m/44'/60'/0'/0. -/
def hdBasePathStr : GoStr :=
  [109, 47, 52, 52, 39, 47, 54, 48, 39, 47, 48, 39, 47, 48]

/-- Embedding of getAddressFromMnemonic (src/unnamed/part_009 lines 44-80):
seed from mnemonic and passphrase, HD wallet from the seed, derivation at the
given path (or the library default when the path string is empty), returning
the account address hex together with the private key bytes. -/
def getAddressFromMnemonic (env : HDEnv)
    (mnemonic passphrase derivationPath : GoStr) :
    Except GoStr (GoStr × List Nat) :=
  let seed := env.bip39NewSeed mnemonic passphrase
  match env.newFromSeed seed with
  | .error e => .error (strBytes "error creating HD wallet: " ++ e)
  | .ok wallet =>
    let pathE : Except GoStr (List Nat) :=
      if derivationPath = [] then .ok env.defaultBaseDerivationPath
      else
        match env.parseDerivationPath derivationPath with
        | .error e => .error (strBytes "error parsing derivation path: " ++ e)
        | .ok parsedPath => .ok parsedPath
    match pathE with
    | .error e => .error e
    | .ok path =>
      match env.derive wallet path false with
      | .error e => .error (strBytes "error deriving account: " ++ e)
      | .ok account =>
        match env.privateKey wallet account with
        | .error e => .error (strBytes "error getting private key: " ++ e)
        | .ok priv =>
          .ok (env.addressHex account, env.fromECDSA priv)

/-- Embedding of the search loop of CreateSpecialCmd
(src/cmd/create_special.go lines 131-162) with explicit fuel. Per iteration:
draw entropy (bip39.NewEntropy outcome given by entropyAt for that attempt
number), build a mnemonic, derive the address with the empty passphrase at
the first-account path, and stop when the compiled regex matches (matchString
is regexp MatchString of the compiled pattern). Every failure in an iteration
is skipped with continue, exactly as in the source. `none` means the loop is
still searching when the fuel runs out. -/
def vanitySearch (env : HDEnv) (newMnemonic : List Nat → Except GoStr GoStr)
    (matchString : GoStr → Bool) (entropyAt : Nat → Option (List Nat)) :
    Nat → Nat → Option (Nat × GoStr × GoStr)
  | 0, _ => none
  | fuel + 1, attempts =>
    match entropyAt (attempts + 1) with
    | none => vanitySearch env newMnemonic matchString entropyAt fuel (attempts + 1)
    | some entropy =>
      match newMnemonic entropy with
      | .error _ =>
        vanitySearch env newMnemonic matchString entropyAt fuel (attempts + 1)
      | .ok tempMnemonic =>
        match getAddressFromMnemonic env tempMnemonic [] firstAccountPathStr with
        | .error _ =>
          vanitySearch env newMnemonic matchString entropyAt fuel (attempts + 1)
        | .ok (tempAddressHex, _) =>
          if matchString tempAddressHex then
            some (attempts + 1, tempMnemonic, tempAddressHex)
          else vanitySearch env newMnemonic matchString entropyAt fuel (attempts + 1)

/-- Embedding of the final address computation of CreateSpecialCmd
(src/cmd/create_special.go lines 222-231): after the AES password is read,
the address is re-derived from the winning mnemonic with the hard-coded empty
passphrase at the first-account path. The AES password is a parameter only to
record that it does not enter the derivation. -/
def createSpecialFinalAddress (env : HDEnv) (mnemonic _aesPassword : GoStr) :
    Except GoStr GoStr :=
  match getAddressFromMnemonic env mnemonic [] firstAccountPathStr with
  | .error e => .error (strBytes "Error generating final address: " ++ e)
  | .ok (finalAddressHex, _) => .ok finalAddressHex

/-- Value of one hexadecimal digit byte, as in encoding/hex. -/
def hexDigitVal (c : Nat) : Option Nat :=
  if 48 ≤ c ∧ c ≤ 57 then some (c - 48)
  else if 97 ≤ c ∧ c ≤ 102 then some (c - 87)
  else if 65 ≤ c ∧ c ≤ 70 then some (c - 55)
  else none

/-- encoding/hex DecodeString: pairs of hex digit bytes to bytes, failing on
an odd length or a non-hex byte. -/
def hexDecodeBytes : GoStr → Option (List Nat)
  | [] => some []
  | [_] => none
  | c1 :: c2 :: rest =>
    match hexDigitVal c1, hexDigitVal c2, hexDecodeBytes rest with
    | some hi, some lo, some tail => some ((16 * hi + lo) :: tail)
    | _, _, _ => none

/-- Lowercase hex digit byte of a value below 16, as in encoding/hex. -/
def hexDigitChar (n : Nat) : Nat := if n < 10 then 48 + n else 87 + n

/-- encoding/hex EncodeToString: two lowercase digits per byte. -/
def hexEncodeBytes (bs : List Nat) : GoStr :=
  (bs.map (fun b => [hexDigitChar (b % 256 / 16), hexDigitChar (b % 16)])).flatten

/-- strings.TrimPrefix of the byte pair 0x (48, 120). -/
def trim0x (s : GoStr) : GoStr :=
  if [48, 120].isPrefixOf s then s.drop 2 else s

/-- An Ethereum transaction as decoded by UnmarshalBinary: its own chain
identifier field plus the remaining payload, kept abstract. -/
structure Tx where
  chainId : Nat
  payload : List Nat
deriving Repr, DecidableEq

/-- External go-ethereum primitives used by SignTransaction: binary
transaction decoding and encoding, private-key parsing, the London signer
constructor (keyed by a chain identifier) and SignTx. -/
structure EthEnv where
  unmarshalBinary : List Nat → Except GoStr Tx
  hexToECDSA : GoStr → Except GoStr (List Nat)
  newLondonSigner : Nat → List Nat
  signTx : Tx → List Nat → List Nat → Except GoStr Tx
  marshalBinary : Tx → Except GoStr (List Nat)

/-- Embedding of SignTransaction (src/util/tx_util.go lines 41-77): decode
the raw transaction hex, parse the private key, build the London signer from
the chain identifier read from the decoded transaction itself, sign, and
re-encode. The function takes no chain identifier from its caller. -/
def SignTransaction (env : EthEnv) (rawTxHex privateKeyHex : GoStr) :
    Except GoStr GoStr :=
  match hexDecodeBytes (trim0x rawTxHex) with
  | none => .error (strBytes "decode raw transaction failed")
  | some rawTxData =>
    match env.unmarshalBinary rawTxData with
    | .error _ => .error (strBytes "unmarshal transaction failed")
    | .ok tx =>
      match env.hexToECDSA (trim0x privateKeyHex) with
      | .error _ => .error (strBytes "invalid private key")
      | .ok priv =>
        let chainID := tx.chainId
        match env.signTx tx (env.newLondonSigner chainID) priv with
        | .error _ => .error (strBytes "sign transaction failed")
        | .ok signedTx =>
          match env.marshalBinary signedTx with
          | .error _ => .error (strBytes "marshal signed transaction failed")
          | .ok signedTxData => .ok (strBytes "0x" ++ hexEncodeBytes signedTxData)

/-- Follows the spec words for claim C5: sign with the replay-protected
signer keyed to the transaction's own chain identifier field and return the
re-encoded bytes; the refinement theorem compares SignTransaction with it. -/
def specSignWithOwnChainId (env : EthEnv) (tx : Tx) (priv : List Nat) :
    Except GoStr GoStr :=
  match env.signTx tx (env.newLondonSigner tx.chainId) priv with
  | .error _ => .error (strBytes "sign transaction failed")
  | .ok signedTx =>
    match env.marshalBinary signedTx with
    | .error _ => .error (strBytes "marshal signed transaction failed")
    | .ok signedTxData => .ok (strBytes "0x" ++ hexEncodeBytes signedTxData)

/-- External go-ethereum primitives used by SignMessage: private-key parsing,
Keccak-256, and secp256k1 ECDSA signing of a 32-byte hash (crypto.Sign,
yielding r, s and a raw recovery byte). -/
structure MsgEnv where
  hexToECDSA : GoStr → Except GoStr (List Nat)
  keccak256 : List Nat → List Nat
  ecdsaSign : List Nat → List Nat → Except GoStr (List Nat)

/-- The fixed personal-message tag bytes: 0x19 (25) followed by the ASCII of
Ethereum Signed Message: and a newline (10). -/
def personalMessageTag : GoStr :=
  25 :: (strBytes "Ethereum Signed Message:" ++ [10])

/-- ASCII decimal digits of a natural number, as Sprintf %d renders it. -/
def decimalBytes (n : Nat) : GoStr := strBytes (Nat.repr n)

/-- The v adjustment of SignMessage: add 27 to the raw recovery id stored in
byte index 64, with Go byte arithmetic modulo 256. -/
def adjustV (sig : List Nat) : List Nat :=
  sig.set 64 ((sig.getD 64 0 + 27) % 256)

/-- Message-byte selection of SignMessage (src/util/tx_util.go lines
396-412): for a hex message require the 0x front marker then hex-decode the
rest; otherwise take the bytes of the text directly. -/
def goMessageBytes (message : GoStr) (hexMessage : Bool) :
    Except GoStr (List Nat) :=
  if hexMessage then
    if [48, 120].isPrefixOf message then
      match hexDecodeBytes (message.drop 2) with
      | none => .error (strBytes "invalid hex message")
      | some bs => .ok bs
    else .error (strBytes "hex message must start with 0x")
  else .ok message

/-- Embedding of SignMessage (src/util/tx_util.go lines 389-429): parse the
key, select the message bytes, build the tagged message with the decimal
byte length, Keccak-256 it, ECDSA-sign the hash, add 27 to the recovery
byte, and return the signature hex with a 0x front marker. -/
def SignMessage (env : MsgEnv) (message privateKeyHex : GoStr)
    (hexMessage : Bool) : Except GoStr GoStr :=
  match env.hexToECDSA (trim0x privateKeyHex) with
  | .error _ => .error (strBytes "invalid private key")
  | .ok priv =>
    match goMessageBytes message hexMessage with
    | .error e => .error e
    | .ok messageBytes =>
      let taggedMessage :=
        personalMessageTag ++ decimalBytes messageBytes.length ++ messageBytes
      let taggedHash := env.keccak256 taggedMessage
      match env.ecdsaSign taggedHash priv with
      | .error _ => .error (strBytes "failed to sign message")
      | .ok signature => .ok (strBytes "0x" ++ hexEncodeBytes (adjustV signature))

/-- Follows the spec words for claim C6: the ECDSA signature over the
Keccak-256 hash of 0x19, the ASCII of Ethereum Signed Message:, a newline,
the decimal length of the message bytes and the message bytes, with 27 added
to the raw recovery id in the last byte, hex-encoded behind 0x. -/
def specSignMessage (env : MsgEnv) (messageBytes priv : List Nat) :
    Except GoStr GoStr :=
  match env.ecdsaSign (env.keccak256
      (personalMessageTag ++ decimalBytes messageBytes.length ++ messageBytes))
      priv with
  | .error _ => .error (strBytes "failed to sign message")
  | .ok signature => .ok (strBytes "0x" ++ hexEncodeBytes (adjustV signature))

/-- Byte codes of the special characters accepted by isStrongPassword
(src/cmd/create.go line 315), in source order: ! @ # $ % ^ & * ( ) - _ + =
the two braces, the two brackets, | : ; the double quote, the apostrophe,
angle brackets, comma, period, ? / backslash, backtick, ~. -/
def specialBytes : List Nat :=
  [33, 64, 35, 36, 37, 94, 38, 42, 40, 41, 45, 95, 43, 61, 123, 125,
   91, 93, 124, 58, 59, 34, 39, 60, 62, 44, 46, 63, 47, 92, 96, 126]

/-- One step of the character switch of isStrongPassword: the four
accumulated flags are hasUpper, hasLower, hasNumber, hasSpecial. -/
def strongStep (st : Bool × Bool × Bool × Bool) (c : Nat) :
    Bool × Bool × Bool × Bool :=
  if 65 ≤ c ∧ c ≤ 90 then (true, st.2.1, st.2.2.1, st.2.2.2)
  else if 97 ≤ c ∧ c ≤ 122 then (st.1, true, st.2.2.1, st.2.2.2)
  else if 48 ≤ c ∧ c ≤ 57 then (st.1, st.2.1, true, st.2.2.2)
  else if c ∈ specialBytes then (st.1, st.2.1, st.2.2.1, true)
  else st

/-- Embedding of isStrongPassword (src/cmd/create.go lines 297-321): length
below 8 fails, otherwise a pass over the bytes must find an uppercase
letter, a lowercase letter, a digit and a special character. -/
def isStrongPassword (password : GoStr) : Bool :=
  if password.length < 8 then false
  else
    let st := password.foldl strongStep (false, false, false, false)
    st.1 && st.2.1 && st.2.2.1 && st.2.2.2

/-- Follows the claim C10 words: at least 8 characters and at least one
uppercase letter, one lowercase letter, one digit and one special character
from the fixed punctuation set. -/
def strongPasswordSpec (password : GoStr) : Prop :=
  8 ≤ password.length ∧
  (∃ c ∈ password, 65 ≤ c ∧ c ≤ 90) ∧
  (∃ c ∈ password, 97 ≤ c ∧ c ≤ 122) ∧
  (∃ c ∈ password, 48 ≤ c ∧ c ≤ 57) ∧
  (∃ c ∈ password, c ∈ specialBytes)

instance (password : GoStr) : Decidable (strongPasswordSpec password) := by
  unfold strongPasswordSpec; infer_instance

/-- The serialized wallet file (src/cmd/common.go lines 20-26). -/
structure WalletFile where
  Version : Nat
  WFEncryptedMnemonic : EncryptedMnemonic
  HDPath : GoStr
  DerivationPath : GoStr
  TestNet : Bool
deriving Repr, DecidableEq

/-- Outcome of the wallet-creation flow fragment modelled below. -/
inductive CreateStep where
  | abortedPasswordMismatch
  | abortedWeakPassword
  | abortedEntropyFailure
  | abortedMnemonicFailure
  | abortedEncryptFailure
  | created (wallet : WalletFile)
deriving Repr, DecidableEq

/-- Embedding of the secret-handling fragment of CreateCmd
(src/cmd/create.go lines 127-209): after the password is read twice it is
checked for equality and then for strength; only then is entropy drawn
(bip39.NewEntropy, outcome entropyRead), the mnemonic built, encrypted, and
the wallet file object assembled with the fixed paths. Every abort happens
before any later step runs. -/
def createWalletFlow (env : CryptoEnv)
    (newMnemonic : List Nat → Except GoStr GoStr)
    (password confirmPassword : GoStr) (entropyRead : Option (List Nat))
    (saltSrc nonceSrc : Option (Nat → Nat)) : CreateStep :=
  if password ≠ confirmPassword then .abortedPasswordMismatch
  else if ¬ isStrongPassword password then .abortedWeakPassword
  else
    match entropyRead with
    | none => .abortedEntropyFailure
    | some entropy =>
      match newMnemonic entropy with
      | .error _ => .abortedMnemonicFailure
      | .ok mnemonic =>
        match EncryptMnemonic env mnemonic password saltSrc nonceSrc with
        | (_, some _) => .abortedEncryptFailure
        | (em, none) =>
          .created { Version := 1, WFEncryptedMnemonic := em,
                     HDPath := hdBasePathStr,
                     DerivationPath := firstAccountPathStr, TestNet := false }

/-! Concrete instantiations of the external primitives, used by witness
theorems to show the assumed library contracts are satisfiable. -/

/-- Witness cryptographic primitives: the key derivation returns a 32-byte
key, seal appends a 16-byte tag, open strips it, base64 is the identity
embedding. They satisfy the pointwise contracts assumed by the theorems. -/
def envW : CryptoEnv where
  argon2IDKey := fun _ _ _ _ _ keyLen => List.replicate keyLen 7
  gcmSeal := fun _ _ pt => pt ++ List.replicate 16 0
  gcmOpen := fun _ _ ct =>
    if 16 ≤ ct.length then some (ct.take (ct.length - 16)) else none
  b64encode := fun bs => bs
  b64decode := fun s => some s

/-- Witness HD-wallet primitives. -/
def hdEnvW : HDEnv where
  bip39NewSeed := fun m p => m ++ p
  newFromSeed := fun seed => .ok seed
  parseDerivationPath := fun s => .ok s
  defaultBaseDerivationPath := []
  derive := fun w _ _ => .ok w
  privateKey := fun w a => .ok (w ++ a)
  addressHex := fun a => a
  fromECDSA := fun k => k

/-- Witness transaction primitives. -/
def ethEnvW : EthEnv where
  unmarshalBinary := fun bs => .ok { chainId := bs.length, payload := bs }
  hexToECDSA := fun s => .ok s
  newLondonSigner := fun c => [c]
  signTx := fun tx signer _ => .ok { tx with payload := signer ++ tx.payload }
  marshalBinary := fun tx => .ok tx.payload

/-- Witness message-signing primitives. -/
def msgEnvW : MsgEnv where
  hexToECDSA := fun s => .ok s
  keccak256 := fun bs => bs.take 32
  ecdsaSign := fun _ _ => .ok (List.replicate 65 1)

/-- Witness plaintext, the concrete scenario string of the spec. -/
def mnemonicW : GoStr := strBytes "test mnemonic phrase"

/-- Witness password. -/
def passwordW : GoStr := strBytes "Abcd1234"

/-- Claim C1: for every plaintext mnemonic and password, decrypting the
envelope produced by EncryptMnemonic with the same password succeeds and
returns exactly the plaintext. The hypotheses are the pointwise library
contracts: the Argon2id key has the requested 32-byte length, base64
decoding inverts encoding on the stored salt, nonce and ciphertext, and GCM
open inverts GCM seal for that key, nonce and plaintext. -/
theorem decryptMnemonic_encryptMnemonic_roundtrip
    (env : CryptoEnv) (mnemonic password : GoStr) (f g : Nat → Nat)
    (salt nonce key ct : List Nat)
    (hsalt : salt = (List.range 16).map f)
    (hnonce : nonce = (List.range gcmNonceSize).map g)
    (hkey : key = env.argon2IDKey password salt 12 (1024 * 1024) 4 32)
    (hkeylen : key.length = 32)
    (hct : ct = env.gcmSeal key nonce mnemonic)
    (hb64s : env.b64decode (env.b64encode salt) = some salt)
    (hb64n : env.b64decode (env.b64encode nonce) = some nonce)
    (hb64c : env.b64decode (env.b64encode ct) = some ct)
    (hopen : env.gcmOpen key nonce ct = some mnemonic) :
    (EncryptMnemonic env mnemonic password (some f) (some g)).2 = none ∧
    DecryptMnemonic env
      (EncryptMnemonic env mnemonic password (some f) (some g)).1 password =
      .ok mnemonic := by
  subst hsalt hnonce hkey hct
  refine ⟨?_, ?_⟩
  · simp [EncryptMnemonic, readFull, aesNewCipherOk, hkeylen]
  · simp [EncryptMnemonic, DecryptMnemonic, readFull, aesNewCipherOk,
      hkeylen, hb64s, hb64n, hb64c, hopen]

/-- Witness for claim C1 at the concrete scenario plaintext and password,
with identity byte streams for the two random reads. -/
theorem decryptMnemonic_encryptMnemonic_roundtrip_witness :
    (EncryptMnemonic envW mnemonicW passwordW (some (fun n => n))
      (some (fun n => n))).2 = none ∧
    DecryptMnemonic envW
      (EncryptMnemonic envW mnemonicW passwordW (some (fun n => n))
        (some (fun n => n))).1 passwordW = .ok mnemonicW :=
  decryptMnemonic_encryptMnemonic_roundtrip envW mnemonicW passwordW
    (fun n => n) (fun n => n)
    ((List.range 16).map (fun n => n)) ((List.range gcmNonceSize).map (fun n => n))
    (List.replicate 32 7) (mnemonicW ++ List.replicate 16 0)
    rfl rfl rfl (by decide) rfl rfl rfl rfl (by decide)

/-- Claim C4: a successful EncryptMnemonic returns an envelope with version
1, algorithm AES-256-GCM, key derivation Argon2id, memory cost 1048576 KB,
12 iterations, parallelism 4, key length 32, a 16-byte salt, a nonce of the
GCM nonce size of 12 bytes, and a ciphertext produced with the key from the
Argon2id call whose arguments are exactly the stored KDF parameters. -/
theorem encryptMnemonic_envelope_parameters
    (env : CryptoEnv) (mnemonic password : GoStr) (f g : Nat → Nat)
    (salt nonce : List Nat)
    (hsalt : salt = (List.range 16).map f)
    (hnonce : nonce = (List.range gcmNonceSize).map g)
    (hkeylen :
      (env.argon2IDKey password salt 12 (1024 * 1024) 4 32).length = 32) :
    (EncryptMnemonic env mnemonic password (some f) (some g)).2 = none ∧
    (EncryptMnemonic env mnemonic password (some f) (some g)).1 =
      { Version := 1
        Algorithm := strBytes "AES-256-GCM"
        KeyDerivation := strBytes "Argon2id"
        Memory := 1048576
        Iterations := 12
        Parallelism := 4
        KeyLength := 32
        Salt := env.b64encode salt
        Nonce := env.b64encode nonce
        Ciphertext := env.b64encode (env.gcmSeal
          (env.argon2IDKey password salt 12 1048576 4 32) nonce mnemonic) } ∧
    salt.length = 16 ∧ nonce.length = gcmNonceSize := by
  subst hsalt hnonce
  refine ⟨?_, ?_, ?_, ?_⟩
  · simp [EncryptMnemonic, readFull, aesNewCipherOk, hkeylen]
  · simp [EncryptMnemonic, readFull, aesNewCipherOk, hkeylen]
  · simp
  · simp [gcmNonceSize]

/-- Witness for claim C4 at concrete inputs. -/
theorem encryptMnemonic_envelope_parameters_witness :
    (EncryptMnemonic envW mnemonicW passwordW (some (fun n => n))
      (some (fun n => n))).2 = none ∧
    (EncryptMnemonic envW mnemonicW passwordW (some (fun n => n))
      (some (fun n => n))).1 =
      { Version := 1
        Algorithm := strBytes "AES-256-GCM"
        KeyDerivation := strBytes "Argon2id"
        Memory := 1048576
        Iterations := 12
        Parallelism := 4
        KeyLength := 32
        Salt := envW.b64encode ((List.range 16).map (fun n => n))
        Nonce := envW.b64encode ((List.range gcmNonceSize).map (fun n => n))
        Ciphertext := envW.b64encode (envW.gcmSeal
          (envW.argon2IDKey passwordW ((List.range 16).map (fun n => n))
            12 1048576 4 32)
          ((List.range gcmNonceSize).map (fun n => n)) mnemonicW) } ∧
    ((List.range 16).map (fun n => n)).length = 16 ∧
    ((List.range gcmNonceSize).map (fun n => n)).length = gcmNonceSize :=
  encryptMnemonic_envelope_parameters envW mnemonicW passwordW
    (fun n => n) (fun n => n)
    ((List.range 16).map (fun n => n)) ((List.range gcmNonceSize).map (fun n => n))
    rfl rfl (by decide)

/-- Claim C8: whenever EncryptMnemonic returns an error, the accompanying
envelope value carries no ciphertext. -/
theorem encryptMnemonic_no_partial_envelope
    (env : CryptoEnv) (mnemonic password : GoStr)
    (saltSrc nonceSrc : Option (Nat → Nat))
    (em : EncryptedMnemonic) (e : GoStr)
    (h : EncryptMnemonic env mnemonic password saltSrc nonceSrc = (em, some e)) :
    em.Ciphertext = [] := by
  revert h
  unfold EncryptMnemonic readFull
  cases saltSrc with
  | none =>
    intro h
    injection h with h1 h2
    subst h1
    rfl
  | some f =>
    cases nonceSrc with
    | none =>
      simp only [Option.map_some']
      split
      · intro h
        injection h with h1 h2
        subst h1
        rfl
      · intro h
        injection h with h1 h2
        subst h1
        rfl
    | some g =>
      simp only [Option.map_some']
      split
      · intro h
        injection h with h1 h2
        exact Option.noConfusion h2
      · intro h
        injection h with h1 h2
        subst h1
        rfl

/-- Witness for claim C8: a failed salt read yields an error and an envelope
with no ciphertext. -/
theorem encryptMnemonic_no_partial_envelope_witness :
    (EncryptMnemonic envW mnemonicW passwordW none none).1.Ciphertext = [] :=
  encryptMnemonic_no_partial_envelope envW mnemonicW passwordW none none
    (EncryptMnemonic envW mnemonicW passwordW none none).1
    (strBytes "failed to generate random salt") rfl

/-- Claim C2: getAddressFromMnemonic is deterministic: two independent calls
on identical (mnemonic, passphrase, derivationPath) triples return the
identical address string and bit-identical private key bytes. The embedding
is a pure function of its inputs — it consults no global state and no
randomness — so equal inputs force equal outputs. -/
theorem getAddressFromMnemonic_deterministic (env : HDEnv)
    (m1 m2 p1 p2 d1 d2 : GoStr)
    (hm : m1 = m2) (hp : p1 = p2) (hd : d1 = d2) :
    getAddressFromMnemonic env m1 p1 d1 = getAddressFromMnemonic env m2 p2 d2 := by
  subst hm hp hd
  rfl

/-- Witness for claim C2, with a concrete evaluation of the derivation. -/
theorem getAddressFromMnemonic_deterministic_witness :
    getAddressFromMnemonic hdEnvW mnemonicW [] firstAccountPathStr =
      Except.ok (mnemonicW, mnemonicW ++ mnemonicW) ∧
    getAddressFromMnemonic hdEnvW mnemonicW [] firstAccountPathStr =
      getAddressFromMnemonic hdEnvW mnemonicW [] firstAccountPathStr :=
  ⟨rfl,
   getAddressFromMnemonic_deterministic hdEnvW mnemonicW mnemonicW [] []
     firstAccountPathStr firstAccountPathStr rfl rfl rfl⟩

/-- Loop invariant of the vanity search: a returned triple was produced by
the iteration that matched, so its address matches the pattern, and
re-deriving from the returned mnemonic with the empty passphrase at the
first-account path yields exactly that address. -/
theorem vanitySearch_inv (env : HDEnv)
    (newMnemonic : List Nat → Except GoStr GoStr)
    (matchString : GoStr → Bool) (entropyAt : Nat → Option (List Nat)) :
    ∀ fuel attempts a m addr,
      vanitySearch env newMnemonic matchString entropyAt fuel attempts =
        some (a, m, addr) →
      matchString addr = true ∧
      ∃ pk, getAddressFromMnemonic env m [] firstAccountPathStr =
        .ok (addr, pk) := by
  intro fuel
  induction fuel with
  | zero =>
    intro attempts a m addr h
    exact absurd h (by simp [vanitySearch])
  | succ n ih =>
    intro attempts a m addr h
    unfold vanitySearch at h
    split at h
    · exact ih _ _ _ _ h
    · split at h
      · exact ih _ _ _ _ h
      · split at h
        · exact ih _ _ _ _ h
        · rename_i tempAddressHex pkv hga
          split at h
          · rename_i hms
            simp only [Option.some.injEq, Prod.mk.injEq] at h
            obtain ⟨-, rfl, rfl⟩ := h
            exact ⟨hms, pkv, hga⟩
          · exact ih _ _ _ _ h

/-- Claim C3: the vanity-search loop only leaves its searching state with a
(mnemonic, address) pair whose address matches the compiled pattern. -/
theorem vanitySearch_only_returns_matches (env : HDEnv)
    (newMnemonic : List Nat → Except GoStr GoStr)
    (matchString : GoStr → Bool) (entropyAt : Nat → Option (List Nat))
    (fuel attempts a : Nat) (m addr : GoStr)
    (h : vanitySearch env newMnemonic matchString entropyAt fuel attempts =
      some (a, m, addr)) :
    matchString addr = true :=
  (vanitySearch_inv env newMnemonic matchString entropyAt fuel attempts
    a m addr h).1

/-- Witness mnemonic builder: the library call modelled as succeeding with
the entropy bytes themselves. -/
def newMnemonicW : List Nat → Except GoStr GoStr := fun e => .ok e

/-- Witness pattern that matches every address. -/
def matchAllW : GoStr → Bool := fun _ => true

/-- Witness entropy source that always succeeds. -/
def entropyOkW : Nat → Option (List Nat) := fun _ => some [0]

/-- Witness entropy source that fails on the first attempt only. -/
def entropySkipW : Nat → Option (List Nat) :=
  fun n => if n = 1 then none else some [0]

/-- Witness for claim C3: a concrete one-iteration search returns a pair and
its address matches the pattern. -/
theorem vanitySearch_only_returns_matches_witness :
    vanitySearch hdEnvW newMnemonicW matchAllW entropyOkW 1 0 =
      some (1, [0], [0]) ∧
    matchAllW [0] = true :=
  ⟨by decide,
   vanitySearch_only_returns_matches hdEnvW newMnemonicW matchAllW entropyOkW
     1 0 1 [0] [0] (by decide)⟩

/-- Claim C9: the final address reported by the vanity-wallet creation flow
is re-derived from the winning mnemonic with the empty passphrase at the
first-account path, so it equals the matched address, and it does not depend
on the AES password later used to encrypt the wallet file. -/
theorem createSpecial_final_address_stable (env : HDEnv)
    (newMnemonic : List Nat → Except GoStr GoStr)
    (matchString : GoStr → Bool) (entropyAt : Nat → Option (List Nat))
    (fuel attempts a : Nat) (m addr pw pw2 : GoStr)
    (h : vanitySearch env newMnemonic matchString entropyAt fuel attempts =
      some (a, m, addr)) :
    createSpecialFinalAddress env m pw = .ok addr ∧
    createSpecialFinalAddress env m pw = createSpecialFinalAddress env m pw2 := by
  obtain ⟨-, pk, hga⟩ :=
    vanitySearch_inv env newMnemonic matchString entropyAt fuel attempts
      a m addr h
  refine ⟨?_, rfl⟩
  unfold createSpecialFinalAddress
  rw [hga]

/-- Witness for claim C9 at a concrete one-iteration search, with two
different AES passwords. -/
theorem createSpecial_final_address_stable_witness :
    createSpecialFinalAddress hdEnvW [0] passwordW = .ok [0] ∧
    createSpecialFinalAddress hdEnvW [0] passwordW =
      createSpecialFinalAddress hdEnvW [0] mnemonicW :=
  createSpecial_final_address_stable hdEnvW newMnemonicW matchAllW entropyOkW
    1 0 1 [0] [0] passwordW mnemonicW (by decide)

/-- Counterexample to claim C7 as stated: in the vanity-search loop
(src/cmd/create_special.go lines 134-139) an entropy failure does not
terminate the operation. With a source that fails on attempt 1 and succeeds
on attempt 2, the loop prints the error, continues, and returns a match on
attempt 2 — the operation is retried, not terminated. -/
theorem vanity_entropy_failure_not_fatal :
    entropySkipW 1 = none ∧
    vanitySearch hdEnvW newMnemonicW matchAllW entropySkipW 2 0 =
      some (2, [0], [0]) := by
  exact ⟨rfl, by decide⟩

/-- Claim C7 (amended): a random-read failure inside EncryptMnemonic — for
the salt or for the nonce — fails the encryption immediately with an error,
while in the vanity-search loop an entropy failure only skips that
iteration: the loop reports it and retries with fresh randomness. -/
theorem entropy_failure_amended (env : CryptoEnv) (henv : HDEnv)
    (mnemonic password : GoStr) (saltSrc nonceSrc : Option (Nat → Nat))
    (newMnemonic : List Nat → Except GoStr GoStr) (matchString : GoStr → Bool)
    (entropyAt : Nat → Option (List Nat)) (fuel attempts : Nat)
    (hent : entropyAt (attempts + 1) = none) :
    (EncryptMnemonic env mnemonic password none nonceSrc).2 ≠ none ∧
    (EncryptMnemonic env mnemonic password saltSrc none).2 ≠ none ∧
    vanitySearch henv newMnemonic matchString entropyAt (fuel + 1) attempts =
      vanitySearch henv newMnemonic matchString entropyAt fuel (attempts + 1) := by
  refine ⟨?_, ?_, ?_⟩
  · simp [EncryptMnemonic, readFull]
  · cases saltSrc with
    | none => simp [EncryptMnemonic, readFull]
    | some f =>
      simp only [EncryptMnemonic, readFull, Option.map_some', Option.map_none']
      split
      · simp
      · simp
  · conv_lhs => unfold vanitySearch
    rw [hent]

/-- Witness for the amended claim C7 at concrete inputs. -/
theorem entropy_failure_amended_witness :
    (EncryptMnemonic envW mnemonicW passwordW none (some (fun n => n))).2 ≠ none ∧
    (EncryptMnemonic envW mnemonicW passwordW (some (fun n => n)) none).2 ≠ none ∧
    vanitySearch hdEnvW newMnemonicW matchAllW entropySkipW 2 0 =
      vanitySearch hdEnvW newMnemonicW matchAllW entropySkipW 1 1 :=
  entropy_failure_amended envW hdEnvW mnemonicW passwordW
    (some (fun n => n)) (some (fun n => n)) newMnemonicW matchAllW
    entropySkipW 1 0 (by decide)

/-- Claim C5: when the raw transaction hex decodes to a valid unsigned
transaction, SignTransaction signs with the London signer built from the
chain identifier extracted from the decoded transaction itself; the function
takes no chain identifier from its caller, so none can influence the
signature. -/
theorem signTransaction_uses_tx_own_chain_id (env : EthEnv)
    (rawTxHex privateKeyHex : GoStr) (rawTxData : List Nat) (tx : Tx)
    (priv : List Nat)
    (hdec : hexDecodeBytes (trim0x rawTxHex) = some rawTxData)
    (hun : env.unmarshalBinary rawTxData = .ok tx)
    (hkey : env.hexToECDSA (trim0x privateKeyHex) = .ok priv) :
    SignTransaction env rawTxHex privateKeyHex =
      specSignWithOwnChainId env tx priv := by
  simp only [SignTransaction, specSignWithOwnChainId, hdec, hun, hkey]

/-- Witness raw transaction hex bytes: the text 0x00ff. -/
def rawTxHexW : GoStr := strBytes "0x00ff"

/-- Witness private key hex bytes. -/
def privKeyHexW : GoStr := strBytes "0x11"

/-- Witness for claim C5 at a concrete transaction whose decoded chain
identifier is its byte length. -/
theorem signTransaction_uses_tx_own_chain_id_witness :
    SignTransaction ethEnvW rawTxHexW privKeyHexW =
      specSignWithOwnChainId ethEnvW { chainId := 2, payload := [0, 255] }
        (strBytes "11") :=
  signTransaction_uses_tx_own_chain_id ethEnvW rawTxHexW privKeyHexW
    [0, 255] { chainId := 2, payload := [0, 255] } (strBytes "11")
    (by decide) rfl rfl

/-- Claim C6: SignMessage hashes the byte string made of the 0x19 tag, the
ASCII of Ethereum Signed Message:, a newline, the decimal length of the
message bytes and the message bytes with Keccak-256, signs the hash with
secp256k1 ECDSA, adds 27 to the raw recovery id held in the last of the 65
signature bytes, and returns the signature hex-encoded behind 0x. The
message bytes come from hex decoding when the hex flag is set and from the
text bytes otherwise. -/
theorem signMessage_builds_personal_sign (env : MsgEnv)
    (message privateKeyHex : GoStr) (hexMessage : Bool)
    (priv mb sig : List Nat)
    (hkey : env.hexToECDSA (trim0x privateKeyHex) = .ok priv)
    (hmb : goMessageBytes message hexMessage = .ok mb)
    (hsig : env.ecdsaSign (env.keccak256
        (personalMessageTag ++ decimalBytes mb.length ++ mb)) priv = .ok sig)
    (hlen : sig.length = 65) :
    SignMessage env message privateKeyHex hexMessage =
      .ok (strBytes "0x" ++ hexEncodeBytes (adjustV sig)) ∧
    SignMessage env message privateKeyHex hexMessage =
      specSignMessage env mb priv ∧
    adjustV sig = sig.take 64 ++ [(sig.getD 64 0 + 27) % 256] ∧
    (adjustV sig).length = 65 := by
  refine ⟨?_, ?_, ?_, ?_⟩
  · simp only [SignMessage, hkey, hmb, hsig]
  · simp only [SignMessage, specSignMessage, hkey, hmb]
  · unfold adjustV
    rw [List.set_eq_take_append_cons_drop, if_pos (by omega)]
    have hd : sig.drop (64 + 1) = [] := by
      rw [List.drop_eq_nil_iff]
      omega
    rw [hd]
  · simp [adjustV, hlen]

/-- Witness message text bytes. -/
def messageW : GoStr := strBytes "Hello"

/-- Witness for claim C6 on a plain-text message with a 65-byte signature of
ones coming from the witness signer. -/
theorem signMessage_builds_personal_sign_witness :
    SignMessage msgEnvW messageW privKeyHexW false =
      .ok (strBytes "0x" ++ hexEncodeBytes (adjustV (List.replicate 65 1))) ∧
    SignMessage msgEnvW messageW privKeyHexW false =
      specSignMessage msgEnvW messageW (strBytes "11") ∧
    adjustV (List.replicate 65 1) =
      (List.replicate 65 1).take 64 ++
        [((List.replicate 65 1).getD 64 0 + 27) % 256] ∧
    (adjustV (List.replicate 65 1)).length = 65 :=
  signMessage_builds_personal_sign msgEnvW messageW privKeyHexW false
    (strBytes "11") messageW (List.replicate 65 1) rfl rfl rfl (by decide)

theorem strongStep_fst (st : Bool × Bool × Bool × Bool) (c : Nat) :
    (strongStep st c).1 = (st.1 || decide (65 ≤ c ∧ c ≤ 90)) := by
  unfold strongStep
  split_ifs with h1 h2 h3 h4
  all_goals simp_all

theorem strongStep_snd (st : Bool × Bool × Bool × Bool) (c : Nat) :
    (strongStep st c).2.1 = (st.2.1 || decide (97 ≤ c ∧ c ≤ 122)) := by
  unfold strongStep
  split_ifs with h1 h2 h3 h4
  all_goals (simp_all; try omega)

theorem strongStep_num (st : Bool × Bool × Bool × Bool) (c : Nat) :
    (strongStep st c).2.2.1 = (st.2.2.1 || decide (48 ≤ c ∧ c ≤ 57)) := by
  unfold strongStep
  split_ifs with h1 h2 h3 h4
  all_goals (simp_all; try omega)

theorem strongStep_special (st : Bool × Bool × Bool × Bool) (c : Nat) :
    (strongStep st c).2.2.2 = (st.2.2.2 || decide (c ∈ specialBytes)) := by
  unfold strongStep
  split_ifs with h1 h2 h3 h4
  all_goals (simp_all [specialBytes]; try omega)

theorem foldl_strong_components (l : List Nat) :
    ∀ st : Bool × Bool × Bool × Bool,
      (l.foldl strongStep st).1 =
        (st.1 || l.any (fun c => decide (65 ≤ c ∧ c ≤ 90))) ∧
      (l.foldl strongStep st).2.1 =
        (st.2.1 || l.any (fun c => decide (97 ≤ c ∧ c ≤ 122))) ∧
      (l.foldl strongStep st).2.2.1 =
        (st.2.2.1 || l.any (fun c => decide (48 ≤ c ∧ c ≤ 57))) ∧
      (l.foldl strongStep st).2.2.2 =
        (st.2.2.2 || l.any (fun c => decide (c ∈ specialBytes))) := by
  induction l with
  | nil => intro st; simp
  | cons c t ih =>
    intro st
    obtain ⟨i1, i2, i3, i4⟩ := ih (strongStep st c)
    refine ⟨?_, ?_, ?_, ?_⟩ <;>
      simp [List.any_cons, i1, i2, i3, i4, strongStep_fst, strongStep_snd,
        strongStep_num, strongStep_special, Bool.or_assoc]

/-- The boolean password check agrees with the spec predicate. -/
theorem isStrongPassword_iff (password : GoStr) :
    isStrongPassword password = true ↔ strongPasswordSpec password := by
  unfold isStrongPassword strongPasswordSpec
  obtain ⟨h1, h2, h3, h4⟩ :=
    foldl_strong_components password (false, false, false, false)
  by_cases hl : password.length < 8
  · simp only [if_pos hl, Bool.false_eq_true, false_iff]
    intro hcon
    omega
  · simp only [if_neg hl, h1, h2, h3, h4, Bool.false_or, Bool.and_eq_true,
      List.any_eq_true, decide_eq_true_eq]
    constructor
    · rintro ⟨⟨⟨ha, hb⟩, hc⟩, hd⟩
      exact ⟨by omega, ha, hb, hc, hd⟩
    · rintro ⟨-, ha, hb, hc, hd⟩
      exact ⟨⟨⟨ha, hb⟩, hc⟩, hd⟩

/-- Claim C10: the create flow with a confirmed password proceeds past the
password gate to mnemonic generation and encryption exactly when the
password passes isStrongPassword, and isStrongPassword holds exactly when
the password has at least 8 characters with at least one uppercase letter,
one lowercase letter, one digit and one special character from the fixed
set; a failing password aborts the flow before any secret is generated. -/
theorem createFlow_password_gate (env : CryptoEnv)
    (newMnemonic : List Nat → Except GoStr GoStr)
    (entropyRead : Option (List Nat)) (saltSrc nonceSrc : Option (Nat → Nat))
    (pw : GoStr) :
    (isStrongPassword pw = true ↔ strongPasswordSpec pw) ∧
    (createWalletFlow env newMnemonic pw pw entropyRead saltSrc nonceSrc =
        CreateStep.abortedWeakPassword ↔ ¬ strongPasswordSpec pw) := by
  refine ⟨isStrongPassword_iff pw, ?_⟩
  rw [← isStrongPassword_iff]
  unfold createWalletFlow
  rw [if_neg (by simp)]
  by_cases hs : isStrongPassword pw = true
  · rw [if_neg (by simp [hs])]
    simp only [hs, not_true_eq_false, iff_false]
    cases entropyRead with
    | none => simp
    | some entropy =>
      rcases hnm : newMnemonic entropy with e | mnemonic <;> simp only [hnm]
      · simp
      · rcases hpair : EncryptMnemonic env mnemonic pw saltSrc nonceSrc with
          ⟨em, _ | e⟩ <;> simp [hpair]
  · rw [if_pos (by simpa using hs)]
    simp [hs]

end EthCliVault
